import Mathlib

/-!
Shallow embedding of `src/files/mod.rs` of the thumbcloud repository:
secure path joining, directory-listing assembly and folder creation.

Paths are modelled as Rust `PathBuf` values: an absoluteness flag plus the
list of normal components (Rust's `Components` iteration drops empty and
`"."` segments).  The filesystem is abstract: a `FS` value supplies the
outcome of `canonicalize`, `read_dir` and `create_dir` for every path, so
theorems quantify over every filesystem the OS could present.
-/

namespace Thumbcloud

/-- A Rust `PathBuf`, reduced to what `join` / `starts_with` / `parent`
observe: whether the path has a root, and its normal components in order. -/
structure RPath where
  absolute : Bool
  components : List String
deriving DecidableEq, Repr

/-- Rust `PathBuf::join`: an absolute right operand replaces the left one,
otherwise the components are concatenated. -/
def pathJoin (first second : RPath) : RPath :=
  if second.absolute then second
  else { absolute := first.absolute, components := first.components ++ second.components }

/-- Rust `Path::starts_with`: whole-component prefix, with matching rootedness. -/
def RPath.starts_with (p base : RPath) : Bool :=
  p.absolute == base.absolute && base.components.isPrefixOf p.components

/-- Rust `Path::parent`: drop the last component; `None` when there is none. -/
def RPath.parent (p : RPath) : Option RPath :=
  match p.components with
  | [] => none
  | _ => some { absolute := p.absolute, components := p.components.dropLast }

/-- Split a character list at every separator, keeping empty pieces —
the behaviour of `String.split`, restated structurally. -/
def splitChars (sep : Char → Bool) : List Char → List (List Char)
  | [] => [[]]
  | c :: rest =>
    if sep c then [] :: splitChars sep rest
    else
      match splitChars sep rest with
      | [] => [[c]]
      | h :: t => (c :: h) :: t

/-- Rust `PathBuf::from` on a string: a separator is `/`, and additionally
`\` on Windows; empty and `"."` segments disappear from the component view. -/
def pathOfString (windows : Bool) (s : String) : RPath :=
  let sep : Char → Bool := fun c => c == '/' || (windows && c == '\\')
  { absolute := match s.data with
      | [] => false
      | c :: _ => sep c
    components := ((splitChars sep s.data).map String.mk).filter (fun t => t ≠ "" && t ≠ ".") }

/-- One directory entry as `add_entry` observes it: the result of
`file_type()` (`none` = the call failed), of `file_name().into_string()`
(`none` = the name is not UTF-8) and of `metadata()` (`none` = the call
failed, otherwise the length in bytes). -/
structure DirEntry where
  file_type : Option Bool
  file_name : Option String
  metadata : Option Nat
deriving DecidableEq, Repr

/-- An element of the `fs::read_dir` iteration: `Err` or a readable entry. -/
inductive EntryResult where
  | err : String → EntryResult
  | ok : DirEntry → EntryResult
deriving DecidableEq, Repr

/-- The abstract filesystem: the outcome of each OS call used by the code.
`create_dir` returns the filesystem after the successful creation. -/
structure FS where
  canonicalize : RPath → Option RPath
  read_dir : RPath → Option (List EntryResult)
  create_dir : RPath → Except String FS

/-- Function `secure_join` from `src/files/mod.rs`: join the two paths, canonicalize
the result against the filesystem (an error if the path does not exist),
and accept only a result that still starts with `first`. -/
def secure_join (fs : FS) (first : RPath) (second : RPath) : Except String RPath :=
  match fs.canonicalize (pathJoin first second) with
  | none => Except.error "No such file or directory"
  | some result =>
    if result.starts_with first then Except.ok result
    else Except.error "Paths are not securely joinable"

/-- The Rust function only reads the filesystem; running it returns the
result together with the (unchanged) filesystem state. -/
def secure_join_run (fs : FS) (first : RPath) (second : RPath) :
    Except String RPath × FS :=
  (secure_join fs first second, fs)

/-- Rust `str::replace` on character lists, fuelled for structural
recursion: replace the leftmost non-overlapping occurrences of `pat` by
`rep`.  The fuel only pays for the non-structural drop of a matched prefix
and never runs out when it starts at the length of `s`.  (The Rust
behaviour for an empty pattern is not modelled; every pattern the code uses
is nonempty.) -/
def replaceCharsAux : Nat → List Char → List Char → List Char → List Char
  | 0, s, _, _ => s
  | _ + 1, [], _, _ => []
  | fuel + 1, c :: rest, pat, rep =>
    if pat ≠ [] ∧ pat.isPrefixOf (c :: rest) then
      rep ++ replaceCharsAux fuel ((c :: rest).drop pat.length) pat rep
    else
      c :: replaceCharsAux fuel rest pat rep

/-- Rust `str::replace` on character lists. -/
def replaceChars (s pat rep : List Char) : List Char :=
  replaceCharsAux s.length s pat rep

/-- Rust `str::replace`, lifted to `String`. -/
def str_replace (s pat rep : String) : String :=
  ⟨replaceChars s.data pat.data rep.data⟩

/-- Function `fix_path` from `src/files/mod.rs`: on Windows change `/` to `\` and
collapse `\\`; on other platforms the identity. -/
def fix_path (windows : Bool) (path : String) : String :=
  if windows then str_replace (str_replace path "/" "\\") "\\\\" "\\"
  else path

/-- One character of `htmlescape::encode_minimal` (external escaping
utility, spec §6): the five minimal HTML entities, other characters kept. -/
def encode_minimal_char (c : Char) : List Char :=
  if c = Char.ofNat 34 then "&quot;".data
  else if c = '&' then "&amp;".data
  else if c = Char.ofNat 39 then "&#x27;".data
  else if c = '<' then "&lt;".data
  else if c = '>' then "&gt;".data
  else [c]

/-- Function `htmlescape::encode_minimal` (external escaping utility, spec §6). -/
def encode_minimal (s : String) : String :=
  ⟨(s.data.map encode_minimal_char).flatten⟩

/-- One character of Rust `{:?}` (Debug) formatting of a string: escape the
quote, the backslash and the common control characters.  (Rust renders the
remaining control characters as unicode escapes; not modelled, no claim
touches them.) -/
def escape_debug_char (c : Char) : List Char :=
  if c = Char.ofNat 34 then [Char.ofNat 92, Char.ofNat 34]
  else if c = Char.ofNat 92 then [Char.ofNat 92, Char.ofNat 92]
  else if c = Char.ofNat 10 then [Char.ofNat 92, 'n']
  else if c = Char.ofNat 13 then [Char.ofNat 92, 'r']
  else if c = Char.ofNat 9 then [Char.ofNat 92, 't']
  else [c]

/-- Rust `format!` with `{:?}` on a string: the escaped text in quotes. -/
def debug_str (s : String) : String :=
  ⟨[Char.ofNat 34] ++ (s.data.map escape_debug_char).flatten ++ [Char.ofNat 34]⟩

/-- Decimal digits of a natural number, most significant first, fuelled
for structural recursion; the fuel never runs out when it starts at `n`. -/
def natDigitsAux : Nat → Nat → List Char
  | 0, n => [Char.ofNat (48 + n % 10)]
  | fuel + 1, n =>
    if n < 10 then [Char.ofNat (48 + n)]
    else natDigitsAux fuel (n / 10) ++ [Char.ofNat (48 + n % 10)]

/-- Decimal rendering of a natural number. -/
def natToString (n : Nat) : String := ⟨natDigitsAux n n⟩

/-- The unit table of the `pretty_bytes` crate. -/
def prettyUnits : List String := ["B", "kB", "MB", "GB", "TB", "PB", "EB", "ZB", "YB"]

/-- Modelled from the external `pretty_bytes::converter::convert` (size
formatter, spec §6): below 1000 the exact byte count with unit `B`;
otherwise the value scaled by a power of 1000 with up to two decimals and
the matching unit.  The crate computes the scaled value in `f64` and rounds
with `{:.2}`; here exact integer arithmetic truncates instead — the two
agree on the sub-kilobyte branch, the only one any claim constrains. -/
def convert (n : Nat) : String :=
  if n < 1000 then natToString n ++ " B"
  else
    let e := min (Nat.log 1000 n) 8
    let q := n * 100 / 1000 ^ e
    let frac := q % 100
    let fracStr : String :=
      if frac = 0 then ""
      else if frac % 10 = 0 then "." ++ natToString (frac / 10)
      else if frac < 10 then ".0" ++ natToString frac
      else "." ++ natToString frac
    natToString (q / 100) ++ fracStr ++ " " ++ prettyUnits.getD e "B"

/-- Modelled from the spec: the Entry Classifier (`src/files/category.rs`,
`category::get_from_name`) is not part of the provided sources; §2 and §6
fix only its shape — a pure total function from a filename and the icon
flag to a category label, with no failure mode.  No claim constrains the
label, so a fixed label stands in for it. -/
def category_get_from_name (_file_name : String) (_simple_icons : Bool) : String :=
  "other"

/-- Structure `FolderItem` from `src/files/mod.rs`. -/
structure FolderItem where
  name : String
deriving DecidableEq, Repr

/-- Function `FolderItem::from_name`: the HTML-escaped folder name. -/
def FolderItem.from_name (folder_name : String) : FolderItem :=
  { name := encode_minimal folder_name }

/-- Structure `FileItem` from `src/files/mod.rs`. -/
structure FileItem where
  name : String
  size : String
  category : String
deriving DecidableEq, Repr

/-- Function `FileItem::from`: category, escaped name, and the pretty-printed size
with the bare `B` unit spelled out as `bytes`. -/
def FileItem.«from» (file_name : String) (simple_icons : Bool) (bytes : Nat) : FileItem :=
  { category := category_get_from_name file_name simple_icons
    name := encode_minimal file_name
    size := str_replace (convert bytes) " B" " bytes" }

/-- Function `FileItem::from_name`: like `FileItem::from` but with an empty size,
used when the metadata read failed. -/
def FileItem.from_name (file_name : String) (simple_icons : Bool) : FileItem :=
  { category := category_get_from_name file_name simple_icons
    name := encode_minimal file_name
    size := "" }

/-- Structure `FileRespond` from `src/files/mod.rs`: the directory-listing response. -/
structure FileRespond where
  action : String
  path : String
  folders : List FolderItem
  files : List FileItem
deriving DecidableEq, Repr

/-- Function `FileRespond::from_path`: the empty listing for an escaped request path. -/
def FileRespond.from_path (path_name : String) : FileRespond :=
  { action := "sendFilelist"
    path := encode_minimal path_name
    folders := []
    files := [] }

/-- The part of the configuration the listed code reads: the root path and
the icon flag. -/
structure Config where
  path : RPath
  simple_icons : Bool

/-- Function `add_entry` from `src/files/mod.rs`: classify one directory entry into
the response; any per-entry failure is an error that leaves the response
unchanged. -/
def add_entry (respond : FileRespond) (entry : EntryResult) (config : Config) :
    Except String FileRespond :=
  match entry with
  | .err e => Except.error e
  | .ok entry =>
    match entry.file_type with
    | none => Except.error "could not read file type"
    | some is_dir =>
      match entry.file_name with
      | none => Except.error "failed to get filename"
      | some file_name =>
        if is_dir then
          Except.ok { respond with folders := respond.folders ++ [FolderItem.from_name file_name] }
        else
          let item := match entry.metadata with
            | some len => FileItem.«from» file_name config.simple_icons len
            | none => FileItem.from_name file_name config.simple_icons
          Except.ok { respond with files := respond.files ++ [item] }

/-- The entry loop of `get_file_respond`: every `add_entry` error is logged
and dropped, the iteration continues with the response as it was. -/
def process_entries (respond : FileRespond) (entries : List EntryResult) (config : Config) :
    FileRespond :=
  entries.foldl
    (fun r e =>
      match add_entry r e config with
      | .ok r2 => r2
      | .error _ => r)
    respond

/-- The wire responses of `src/files/mod.rs`, one constructor per `action`
tag (serialization itself is the external Response Encoder, spec §6). -/
inductive Respond where
  | sendError (message : String)
  | fileList (r : FileRespond)
  | sendNewFolder (created : Bool) (message : String)
deriving DecidableEq, Repr

/-- Function `get_file_respond` from `src/files/mod.rs`: sanitize the request path,
secure-join it against the configured root, read the directory and fold the
entries into a listing; either failure yields the generic error message
built from the sanitized request path. -/
def get_file_respond (fs : FS) (windows : Bool) (path_end : String) (config : Config) :
    Respond :=
  match secure_join fs config.path (pathOfString windows (fix_path windows path_end)) with
  | .error _ =>
    Respond.sendError ("Cannot read the given path: " ++ debug_str (fix_path windows path_end))
  | .ok path =>
    match fs.read_dir path with
    | none =>
      Respond.sendError ("Cannot read the given path: " ++ debug_str (fix_path windows path_end))
    | some entries =>
      Respond.fileList
        (process_entries (FileRespond.from_path (fix_path windows path_end)) entries config)

/-- The parent computation of `get_new_folder_respond`:
`path_end.parent()`, or the empty path when there is no parent. -/
def new_folder_parent (path_end : RPath) : RPath :=
  match path_end.parent with
  | some path => path
  | none => { absolute := false, components := [] }

/-- Function `get_new_folder_respond` from `src/files/mod.rs`: secure-join the
parent of the requested path against the root; on success create the
directory at the raw join of root and requested path.  The pair carries the
filesystem after the call. -/
def get_new_folder_respond (fs : FS) (windows : Bool) (path_end : String) (config : Config) :
    Respond × FS :=
  match secure_join fs config.path (new_folder_parent (pathOfString windows path_end)) with
  | .error _ =>
    (Respond.sendNewFolder false "Cannot create new folder, because the path is invalid", fs)
  | .ok _ =>
    match fs.create_dir (pathJoin config.path (pathOfString windows path_end)) with
    | .error e =>
      (Respond.sendNewFolder false ("Cannot create new folder.<br<br>Exact Error: " ++ e), fs)
    | .ok fs2 => (Respond.sendNewFolder true "", fs2)

/-- An entry the listing loop drops entirely: the iterator yielded an
error, the file type was unreadable, or the name was not UTF-8. -/
def skipped_entry : EntryResult → Bool
  | .err _ => true
  | .ok d => d.file_type.isNone || d.file_name.isNone

/-- The folder items the entry loop produces, in iteration order: one per
readable entry whose file type is `directory`. -/
def entryFolders (entries : List EntryResult) : List FolderItem :=
  entries.filterMap fun e =>
    match e with
    | .ok ⟨some true, some nm, _⟩ => some (FolderItem.from_name nm)
    | _ => none

/-- The file items the entry loop produces, in iteration order: one per
readable non-directory entry, with the size present exactly when the
metadata read succeeded. -/
def entryFiles (config : Config) (entries : List EntryResult) : List FileItem :=
  entries.filterMap fun e =>
    match e with
    | .ok ⟨some false, some nm, some len⟩ => some (FileItem.«from» nm config.simple_icons len)
    | .ok ⟨some false, some nm, none⟩ => some (FileItem.from_name nm config.simple_icons)
    | _ => none

/-- A sample sandbox root, `/srv/files`. -/
def rootSample : RPath := ⟨true, ["srv", "files"]⟩

/-- A filesystem with nothing in it: every call fails. -/
def fsEmpty : FS :=
  { canonicalize := fun _ => none
    read_dir := fun _ => none
    create_dir := fun _ => Except.error "unsupported" }

/-- A sample filesystem under `/srv/files`: a directory `docs` holding one
subdirectory, one well-formed file, one file with unreadable metadata, one
entry with a non-UTF-8 name and one iterator error; `docs/new` can be
created once, every other creation fails. -/
def fsSample : FS :=
  { canonicalize := fun p =>
      if p.absolute && p.components == ["srv", "files", "docs"] then some p
      else if p.absolute && p.components == ["srv", "files"] then some p
      else none
    read_dir := fun p =>
      if p.absolute && p.components == ["srv", "files", "docs"] then
        some [EntryResult.ok ⟨some true, some "sub", some 0⟩,
              EntryResult.ok ⟨some false, some "a<b&.txt", some 5⟩,
              EntryResult.ok ⟨some false, some "bad", none⟩,
              EntryResult.ok ⟨some false, none, some 3⟩,
              EntryResult.err "boom"]
      else none
    create_dir := fun p =>
      if p.absolute && p.components == ["srv", "files", "docs", "new"] then Except.ok fsEmpty
      else Except.error "File exists (os error 17)" }

/-- The canonical form of `/srv/files/docs` in `fsSample`. -/
def docsAbs : RPath := ⟨true, ["srv", "files", "docs"]⟩

/-- The listing `fsSample` yields for the request path `docs`. -/
def respDocs : FileRespond :=
  { action := "sendFilelist"
    path := "docs"
    folders := [⟨"sub"⟩]
    files := [⟨"a&lt;b&amp;.txt", "5 bytes", "other"⟩, ⟨"bad", "", "other"⟩] }

end Thumbcloud

namespace Thumbcloud

lemma process_entries_cons (r : FileRespond) (e : EntryResult) (rest : List EntryResult)
    (config : Config) :
    process_entries r (e :: rest) config =
      process_entries
        (match add_entry r e config with
         | .ok r2 => r2
         | .error _ => r)
        rest config := rfl

lemma process_entries_append (r : FileRespond) (xs ys : List EntryResult) (config : Config) :
    process_entries r (xs ++ ys) config =
      process_entries (process_entries r xs config) ys config := by
  unfold process_entries
  exact List.foldl_append _ _ _ _

lemma add_entry_skipped (r : FileRespond) (e : EntryResult) (config : Config)
    (h : skipped_entry e = true) :
    (match add_entry r e config with
     | .ok r2 => r2
     | .error _ => r) = r := by
  rcases e with msg | ⟨ft, fn, md⟩
  · rfl
  · rcases ft with _ | b
    · rfl
    · rcases fn with _ | nm
      · rfl
      · simp [skipped_entry] at h

lemma process_entries_eq (config : Config) (entries : List EntryResult) (r : FileRespond) :
    process_entries r entries config =
      { r with
        folders := r.folders ++ entryFolders entries
        files := r.files ++ entryFiles config entries } := by
  induction entries generalizing r with
  | nil => simp [process_entries, entryFolders, entryFiles]
  | cons e rest ih =>
    rw [process_entries_cons]
    rcases e with msg | ⟨ft, fn, md⟩
    · rw [ih]; simp [add_entry, entryFolders, entryFiles]
    · rcases ft with _ | b
      · rw [ih]; simp [add_entry, entryFolders, entryFiles]
      · rcases fn with _ | nm
        · rw [ih]; simp [add_entry, entryFolders, entryFiles]
        · cases b
          · rcases md with _ | len
            · rw [ih]
              simp [add_entry, entryFolders, entryFiles, List.filterMap_cons, List.append_assoc]
            · rw [ih]
              simp [add_entry, entryFolders, entryFiles, List.filterMap_cons, List.append_assoc]
          · rw [ih]
            simp [add_entry, entryFolders, entryFiles, List.filterMap_cons, List.append_assoc]

end Thumbcloud

namespace Thumbcloud

lemma replaceChars_ne_nil (s pat rep : List Char) (hs : s ≠ []) (hrep : rep ≠ []) :
    replaceChars s pat rep ≠ [] := by
  rcases s with _ | ⟨c, rest⟩
  · exact absurd rfl hs
  · show replaceCharsAux (c :: rest).length (c :: rest) pat rep ≠ []
    rw [List.length_cons]
    unfold replaceCharsAux
    split
    · intro hcontra
      exact hrep (List.append_eq_nil.mp hcontra).1
    · simp

lemma convert_data_ne_nil (n : Nat) : (convert n).data ≠ [] := by
  unfold convert
  split
  · intro hcontra
    rw [String.data_append] at hcontra
    rcases List.append_eq_nil.mp hcontra with ⟨_, h2⟩
    exact absurd h2 (by decide)
  · intro hcontra
    rw [String.data_append, String.data_append, String.data_append] at hcontra
    rcases List.append_eq_nil.mp hcontra with ⟨h1, _⟩
    rcases List.append_eq_nil.mp h1 with ⟨_, h3⟩
    exact absurd h3 (by decide)

lemma fileItem_size_ne_empty (nm : String) (b : Bool) (len : Nat) :
    (FileItem.«from» nm b len).size ≠ "" := by
  show str_replace (convert len) " B" " bytes" ≠ ""
  unfold str_replace
  intro h
  have hdata : replaceChars (convert len).data " B".data " bytes".data = [] :=
    congrArg String.data h
  exact replaceChars_ne_nil _ _ _ (convert_data_ne_nil len) (by decide) hdata

lemma encode_minimal_char_no_specials (c : Char) :
    '<' ∉ encode_minimal_char c ∧ '>' ∉ encode_minimal_char c ∧
      Char.ofNat 34 ∉ encode_minimal_char c := by
  unfold encode_minimal_char
  split
  · refine ⟨by decide, by decide, by decide⟩
  · split
    · refine ⟨by decide, by decide, by decide⟩
    · split
      · refine ⟨by decide, by decide, by decide⟩
      · split
        · refine ⟨by decide, by decide, by decide⟩
        · split
          · refine ⟨by decide, by decide, by decide⟩
          · rename_i h34 hamp h39 hlt hgt
            refine ⟨?_, ?_, ?_⟩ <;> intro hmem <;> rw [List.mem_singleton] at hmem
            · exact hlt hmem.symm
            · exact hgt hmem.symm
            · exact h34 hmem.symm

lemma encode_minimal_no_specials (s : String) :
    '<' ∉ (encode_minimal s).data ∧ '>' ∉ (encode_minimal s).data ∧
      Char.ofNat 34 ∉ (encode_minimal s).data := by
  unfold encode_minimal
  refine ⟨?_, ?_, ?_⟩ <;> intro hmem <;>
    obtain ⟨l, hl, hc⟩ := List.mem_flatten.mp hmem <;>
    obtain ⟨c, _, rfl⟩ := List.mem_map.mp hl
  · exact (encode_minimal_char_no_specials c).1 hc
  · exact (encode_minimal_char_no_specials c).2.1 hc
  · exact (encode_minimal_char_no_specials c).2.2 hc

lemma message_prefixed_ne_empty (e : String) :
    "Cannot create new folder.<br<br>Exact Error: " ++ e ≠ "" := by
  intro hcontra
  have hdata := congrArg String.data hcontra
  rw [String.data_append] at hdata
  rcases List.append_eq_nil.mp hdata with ⟨h1, _⟩
  exact absurd h1 (by decide)

end Thumbcloud

namespace Thumbcloud

/-- C1: `secure_join root relative` returns `Ok p` exactly when `p` is the
canonicalization of `root` joined with `relative` and `p` starts with
`root`; in every other case it returns an error, so no resolved path
outside `root` is ever returned. -/
theorem secure_join_ok_iff (fs : FS) (first second p : RPath) :
    secure_join fs first second = Except.ok p ↔
      fs.canonicalize (pathJoin first second) = some p ∧ p.starts_with first = true := by
  unfold secure_join
  cases hc : fs.canonicalize (pathJoin first second) with
  | none => simp
  | some r =>
    by_cases hs : r.starts_with first = true
    · simp only [hs, if_true]
      constructor
      · intro h
        injection h with h
        subst h
        exact ⟨rfl, hs⟩
      · rintro ⟨h1, _⟩
        injection h1 with h1
        rw [h1]
    · simp only [hs, if_false]
      constructor
      · intro h; exact Except.noConfusion h
      · rintro ⟨h1, h2⟩
        injection h1 with h1
        subst h1
        exact absurd h2 hs

/-- C2: a relative path that resolves (exists) fully inside `root` makes
`secure_join` return the canonical absolute path, and running the call
again on the filesystem state left by the first call gives the same
result. -/
theorem secure_join_inside_idempotent (fs : FS) (root rel p : RPath)
    (h1 : fs.canonicalize (pathJoin root rel) = some p)
    (h2 : p.starts_with root = true) :
    (secure_join_run fs root rel).1 = Except.ok p ∧
      (secure_join_run (secure_join_run fs root rel).2 root rel).1 = Except.ok p := by
  have hok : secure_join fs root rel = Except.ok p := by
    unfold secure_join
    simp only [h1, h2, if_true]
  exact ⟨hok, hok⟩

/-- Witness for C2 at a concrete filesystem: resolving `docs` inside
`/srv/files` twice yields `/srv/files/docs` both times. -/
theorem secure_join_inside_idempotent_witness :
    (secure_join_run fsSample rootSample ⟨false, ["docs"]⟩).1 = Except.ok docsAbs ∧
      (secure_join_run (secure_join_run fsSample rootSample ⟨false, ["docs"]⟩).2 rootSample
          ⟨false, ["docs"]⟩).1 = Except.ok docsAbs :=
  secure_join_inside_idempotent fsSample rootSample ⟨false, ["docs"]⟩ docsAbs (by decide) (by decide)

/-- C3: whenever secure resolution fails, or the resolved directory cannot
be read, `get_file_respond` answers with exactly the generic error message
around the sanitized request path — never with the OS error text. -/
theorem get_file_respond_failure_message (fs : FS) (windows : Bool) (path_end : String)
    (config : Config)
    (h : ∀ p, secure_join fs config.path (pathOfString windows (fix_path windows path_end)) =
        Except.ok p → fs.read_dir p = none) :
    get_file_respond fs windows path_end config =
      Respond.sendError ("Cannot read the given path: " ++ debug_str (fix_path windows path_end)) := by
  unfold get_file_respond
  cases hs : secure_join fs config.path (pathOfString windows (fix_path windows path_end)) with
  | error e => simp only [hs]
  | ok p =>
    have hr := h p hs
    simp only [hs, hr]

/-- Witness for C3: the spec scenario `root = /srv/files`, request
`sub/../../outside`, whose resolution fails. -/
theorem get_file_respond_failure_message_witness :
    get_file_respond fsSample false "sub/../../outside" ⟨rootSample, false⟩ =
      Respond.sendError
        ("Cannot read the given path: " ++ debug_str (fix_path false "sub/../../outside")) :=
  get_file_respond_failure_message fsSample false "sub/../../outside" ⟨rootSample, false⟩
    (fun p hp =>
      Except.noConfusion
        (show Except.error "No such file or directory" = Except.ok p from hp))

/-- C7: a zero-byte file gets the size string `0 bytes`, the single-byte
unit spelled out rather than the abbreviated `B`. -/
theorem zero_byte_size_spelled_out (nm : String) (simple : Bool) :
    (FileItem.«from» nm simple 0).size = "0 bytes" ∧
      "bytes".data.isSuffixOf (FileItem.«from» nm simple 0).size.data = true :=
  ⟨rfl, rfl⟩

end Thumbcloud

namespace Thumbcloud

/-- C4: a per-entry failure is non-fatal: a skipped entry (iterator error,
unreadable file type or non-UTF-8 name) leaves the rest of the listing
exactly as if the entry were absent, and an entry whose metadata read
failed still appears as a file item with an empty size while the remaining
entries are processed unchanged. -/
theorem listing_per_entry_failure_nonfatal (config : Config) (r : FileRespond)
    (xs ys : List EntryResult) (e : EntryResult) (nm : String)
    (h : skipped_entry e = true) :
    process_entries r (xs ++ e :: ys) config = process_entries r (xs ++ ys) config ∧
    process_entries r (xs ++ EntryResult.ok ⟨some false, some nm, none⟩ :: ys) config =
      process_entries
        { process_entries r xs config with
          files := (process_entries r xs config).files ++
            [FileItem.from_name nm config.simple_icons] }
        ys config ∧
    (FileItem.from_name nm config.simple_icons).size = "" := by
  refine ⟨?_, ?_, rfl⟩
  · rw [process_entries_append, process_entries_append, process_entries_cons,
      add_entry_skipped _ _ _ h]
  · rw [process_entries_append, process_entries_cons]
    rfl

/-- Witness for C4: dropping a non-UTF-8-named entry between two others
leaves the listing of the two others unchanged. -/
theorem listing_per_entry_failure_nonfatal_witness :
    process_entries (FileRespond.from_path "docs")
        ([EntryResult.ok ⟨some true, some "sub", some 0⟩] ++
          EntryResult.ok ⟨some false, none, some 3⟩ :: [EntryResult.err "boom"])
        ⟨rootSample, false⟩ =
      process_entries (FileRespond.from_path "docs")
        ([EntryResult.ok ⟨some true, some "sub", some 0⟩] ++ [EntryResult.err "boom"])
        ⟨rootSample, false⟩ :=
  (listing_per_entry_failure_nonfatal ⟨rootSample, false⟩ (FileRespond.from_path "docs")
    [EntryResult.ok ⟨some true, some "sub", some 0⟩] [EntryResult.err "boom"]
    (EntryResult.ok ⟨some false, none, some 3⟩) "bad" (by decide)).1

/-- C5: the entry loop appends, in iteration order, exactly one folder item
per entry reported as a directory and exactly one file item per other
readable entry — none duplicated, none dropped over a metadata failure —
and the size field is nonempty exactly when the metadata was retrievable. -/
theorem listing_classification_exact (config : Config) (r : FileRespond)
    (entries : List EntryResult) :
    (process_entries r entries config).folders = r.folders ++ entryFolders entries ∧
    (process_entries r entries config).files = r.files ++ entryFiles config entries ∧
    (∀ nm, (FileItem.from_name nm config.simple_icons).size = "") ∧
    ∀ nm len, (FileItem.«from» nm config.simple_icons len).size ≠ "" := by
  refine ⟨?_, ?_, fun nm => rfl, fun nm len => fileItem_size_ne_empty nm config.simple_icons len⟩
  · rw [process_entries_eq]
  · rw [process_entries_eq]

/-- C6: every name field of a listing response is the HTML-entity-escaped
form of a filesystem-derived string — the path, each folder name and each
file name — and escaped strings contain no raw `<`, `>` or `"`. -/
theorem listing_names_escaped (fs : FS) (windows : Bool) (path_end : String) (config : Config)
    (r : FileRespond)
    (h : get_file_respond fs windows path_end config = Respond.fileList r) :
    r.path = encode_minimal (fix_path windows path_end) ∧
    (∀ item ∈ r.folders, ∃ nm, item.name = encode_minimal nm) ∧
    (∀ item ∈ r.files, ∃ nm, item.name = encode_minimal nm) ∧
    ∀ s : String, '<' ∉ (encode_minimal s).data ∧ '>' ∉ (encode_minimal s).data ∧
      Char.ofNat 34 ∉ (encode_minimal s).data := by
  unfold get_file_respond at h
  cases hs : secure_join fs config.path (pathOfString windows (fix_path windows path_end)) with
  | error e =>
    rw [hs] at h
    exact Respond.noConfusion h
  | ok p =>
    cases hr : fs.read_dir p with
    | none =>
      rw [hs] at h
      simp only [hr] at h
      exact Respond.noConfusion h
    | some entries =>
      rw [hs] at h
      simp only [hr] at h
      injection h with h
      subst h
      refine ⟨?_, ?_, ?_, fun s => encode_minimal_no_specials s⟩
      · rw [process_entries_eq]
        rfl
      · intro item hitem
        rw [process_entries_eq] at hitem
        simp only [FileRespond.from_path, List.nil_append] at hitem
        unfold entryFolders at hitem
        obtain ⟨a, _, hfa⟩ := List.mem_filterMap.mp hitem
        rcases a with msg | ⟨ft, fn, md⟩
        · simp at hfa
        · rcases ft with _ | b
          · simp at hfa
          · rcases fn with _ | nm
            · cases b <;> simp at hfa
            · cases b
              · simp at hfa
              · simp only [Option.some.injEq] at hfa
                exact ⟨nm, by rw [← hfa]; rfl⟩
      · intro item hitem
        rw [process_entries_eq] at hitem
        simp only [FileRespond.from_path, List.nil_append] at hitem
        unfold entryFiles at hitem
        obtain ⟨a, _, hfa⟩ := List.mem_filterMap.mp hitem
        rcases a with msg | ⟨ft, fn, md⟩
        · simp at hfa
        · rcases ft with _ | b
          · simp at hfa
          · rcases fn with _ | nm
            · cases b <;> simp at hfa
            · cases b
              · rcases md with _ | len
                · simp only [Option.some.injEq] at hfa
                  exact ⟨nm, by rw [← hfa]; rfl⟩
                · simp only [Option.some.injEq] at hfa
                  exact ⟨nm, by rw [← hfa]; rfl⟩
              · simp at hfa

/-- Witness for C6: in the sample listing of `docs` the path field is the
escaped request path. -/
theorem listing_names_escaped_witness :
    respDocs.path = encode_minimal (fix_path false "docs") :=
  (listing_names_escaped fsSample false "docs" ⟨rootSample, false⟩ respDocs (by decide)).1

end Thumbcloud

namespace Thumbcloud

/-- C8: when the parent of the requested folder path fails the secure join
against the root, `get_new_folder_respond` answers with the fixed
invalid-path message and the filesystem is left untouched. -/
theorem new_folder_invalid_parent_rejected (fs : FS) (windows : Bool) (path_end : String)
    (config : Config)
    (h : ∀ q, secure_join fs config.path (new_folder_parent (pathOfString windows path_end)) ≠
        Except.ok q) :
    get_new_folder_respond fs windows path_end config =
      (Respond.sendNewFolder false "Cannot create new folder, because the path is invalid", fs) := by
  unfold get_new_folder_respond
  cases hs : secure_join fs config.path (new_folder_parent (pathOfString windows path_end)) with
  | error e => simp only [hs]
  | ok q => exact absurd hs (h q)

/-- Witness for C8: requesting `../evil/x` under `/srv/files`, whose parent
resolves outside the root. -/
theorem new_folder_invalid_parent_rejected_witness :
    get_new_folder_respond fsSample false "../evil/x" ⟨rootSample, false⟩ =
      (Respond.sendNewFolder false "Cannot create new folder, because the path is invalid",
        fsSample) :=
  new_folder_invalid_parent_rejected fsSample false "../evil/x" ⟨rootSample, false⟩
    (fun q hq =>
      Except.noConfusion
        (show Except.error "No such file or directory" = Except.ok q from hq))

/-- C9: once the parent passed validation, the outcome is decided by the
single creation attempt at root joined with the raw requested path: success
answers `created, empty message`; any OS failure answers `not created` with
a nonempty message carrying the OS error text, and the filesystem is the
one the failed attempt left behind. -/
theorem new_folder_creation_outcomes (fs : FS) (windows : Bool) (path_end : String)
    (config : Config) (q : RPath)
    (hp : secure_join fs config.path (new_folder_parent (pathOfString windows path_end)) =
      Except.ok q) :
    (∀ fs2, fs.create_dir (pathJoin config.path (pathOfString windows path_end)) =
        Except.ok fs2 →
      get_new_folder_respond fs windows path_end config = (Respond.sendNewFolder true "", fs2)) ∧
    ∀ e, fs.create_dir (pathJoin config.path (pathOfString windows path_end)) =
        Except.error e →
      get_new_folder_respond fs windows path_end config =
        (Respond.sendNewFolder false ("Cannot create new folder.<br<br>Exact Error: " ++ e),
          fs) ∧
      "Cannot create new folder.<br<br>Exact Error: " ++ e ≠ "" := by
  constructor
  · intro fs2 hc
    unfold get_new_folder_respond
    simp only [hp, hc]
  · intro e hc
    refine ⟨?_, message_prefixed_ne_empty e⟩
    unfold get_new_folder_respond
    simp only [hp, hc]

/-- Witness for C9: creating `docs/new` in the sample filesystem succeeds
with an empty message. -/
theorem new_folder_creation_outcomes_witness :
    get_new_folder_respond fsSample false "docs/new" ⟨rootSample, false⟩ =
      (Respond.sendNewFolder true "", fsEmpty) :=
  (new_folder_creation_outcomes fsSample false "docs/new" ⟨rootSample, false⟩ docsAbs
    rfl).1 fsEmpty rfl

/-- C10: the `path` field of every successful listing is the escaped,
separator-sanitized request path, and every other answer of
`get_file_respond` is the generic error built from that same request path —
the canonical resolved path appears in neither. -/
theorem listing_path_is_request_path (fs : FS) (windows : Bool) (path_end : String)
    (config : Config) :
    get_file_respond fs windows path_end config =
        Respond.sendError
          ("Cannot read the given path: " ++ debug_str (fix_path windows path_end)) ∨
      ∃ r, get_file_respond fs windows path_end config = Respond.fileList r ∧
        r.action = "sendFilelist" ∧ r.path = encode_minimal (fix_path windows path_end) := by
  unfold get_file_respond
  cases hs : secure_join fs config.path (pathOfString windows (fix_path windows path_end)) with
  | error e => left; simp only [hs]
  | ok p =>
    cases hr : fs.read_dir p with
    | none => left; simp only [hs, hr]
    | some entries =>
      right
      refine ⟨process_entries (FileRespond.from_path (fix_path windows path_end)) entries config,
        by simp only [hs, hr], ?_, ?_⟩
      · rw [process_entries_eq]
        rfl
      · rw [process_entries_eq]
        rfl

end Thumbcloud
